import Mathlib

/-!
# Verification of the rust_matchspec package-constraint matcher

Shallow embedding of the matchspec library: the candidate model and its
dict conversions (from `src/python/rust_matchspec/__init__.py`), and the
version comparator, specifier parser, match engine and filter engine,
modelled from the specification (the Rust core is not part of the visible
sources; only its Python glue, tests and benchmarks are).
-/

namespace Matchspec

open Batteries

/-! ## Generic lexicographic list comparator -/

/-- Lexicographic comparison of lists by an element comparator: the empty
list sorts before any nonempty list, and otherwise heads are compared
first, ties broken by the tails. -/
def compareListBy (cmp : α → α → Ordering) : List α → List α → Ordering
  | [], [] => .eq
  | [], _ :: _ => .lt
  | _ :: _, [] => .gt
  | a :: as, b :: bs => (cmp a b).then (compareListBy cmp as bs)

theorem compareListBy_swap (cmp : α → α → Ordering) [OrientedCmp cmp] :
    ∀ (x y : List α), (compareListBy cmp x y).swap = compareListBy cmp y x
  | [], [] => rfl
  | [], _ :: _ => rfl
  | _ :: _, [] => rfl
  | a :: as, b :: bs => by
    simp only [compareListBy, Ordering.swap_then]
    rw [OrientedCmp.symm a b, compareListBy_swap cmp as bs]

instance (cmp : α → α → Ordering) [OrientedCmp cmp] :
    OrientedCmp (compareListBy cmp) where
  symm x y := compareListBy_swap cmp x y

theorem compareListBy_le_trans (cmp : α → α → Ordering) [TransCmp cmp] :
    ∀ (x y z : List α), compareListBy cmp x y ≠ .gt →
      compareListBy cmp y z ≠ .gt → compareListBy cmp x z ≠ .gt
  | [], _, [], _, _ => by simp [compareListBy]
  | [], _, _ :: _, _, _ => by simp [compareListBy]
  | _ :: _, [], _, h1, _ => absurd rfl h1
  | _ :: _, _ :: _, [], _, h2 => absurd rfl h2
  | a :: as, b :: bs, c :: cs, h1, h2 => by
    simp only [compareListBy, ne_eq, Ordering.then_eq_gt, not_or, not_and] at h1 h2 ⊢
    refine ⟨TransCmp.le_trans h1.1 h2.1, fun e1 e2 => ?_⟩
    match hab : cmp a b with
    | .gt => exact h1.1 hab
    | .eq =>
      exact compareListBy_le_trans cmp as bs cs (h1.2 hab)
        (h2.2 (TransCmp.cmp_congr_left hab ▸ e1)) e2
    | .lt => exact h2.1 (OrientedCmp.cmp_eq_gt.2 (TransCmp.cmp_congr_left e1 ▸ hab))

instance (cmp : α → α → Ordering) [TransCmp cmp] : TransCmp (compareListBy cmp) where
  le_trans := compareListBy_le_trans cmp _ _ _

/-! ## Candidate model

The candidate value type and its mapping conversions.  `to_dict` is the
Python helper `package_candidate_to_dict` from
`src/python/rust_matchspec/__init__.py`; `from_dict` is modelled from the
specification (the Rust implementation is not among the visible sources).
-/

/-- A value in a generic key-value mapping, as deserialized from a
package-repository index document: a string, a non-negative integer, a
sequence of strings, or null. -/
inductive Value where
  | str (s : String)
  | nat (n : Nat)
  | list (l : List String)
  | null
deriving DecidableEq, Repr

/-- A generic key-value mapping (python dict), as an association list. -/
abbrev Dict := List (String × Value)

/-- Look a key up in a mapping (first binding wins). -/
def lookup : Dict → String → Option Value
  | [], _ => none
  | (k, v) :: m, key => if k = key then some v else lookup m key

/-- The candidate value type: one catalog entry.  Fields per the spec's
data model: name, version, build string, build number (default 0),
dependency list (default empty), license, md5, sha256, size, subdirectory,
timestamp; all but `name` optional. -/
structure PackageCandidate where
  name : String
  version : Option String := none
  build : Option String := none
  build_number : Nat := 0
  depends : List String := []
  license : Option String := none
  md5 : Option String := none
  sha256 : Option String := none
  size : Option Nat := none
  subdir : Option String := none
  timestamp : Option Nat := none
deriving DecidableEq, Repr

/-- Errors surfaced by the library: a missing required mapping key, or a
malformed specifier/version string. -/
inductive MsError where
  | keyError (key : String)
  | parseError (fragment : String)
deriving DecidableEq, Repr

/-- Read a string-valued key (null or absent count as unset). -/
def getStr (m : Dict) (k : String) : Option String :=
  match lookup m k with
  | some (.str s) => some s
  | _ => none

/-- Read an integer-valued key. -/
def getNat (m : Dict) (k : String) : Option Nat :=
  match lookup m k with
  | some (.nat n) => some n
  | _ => none

/-- Read a string-list-valued key. -/
def getList (m : Dict) (k : String) : Option (List String) :=
  match lookup m k with
  | some (.list l) => some l
  | _ => none

/-- Modelled from the spec: `PackageCandidate.from_dict` (the Rust
constructor is not among the visible sources).  Requires the `name` key
and fails with a `KeyError` identifying it otherwise; every other field is
optional, with `build_number` defaulting to 0, `depends` to the empty
sequence and the rest to absent/null. -/
def from_dict (m : Dict) : Except MsError PackageCandidate :=
  match getStr m "name" with
  | none => .error (.keyError "name")
  | some n => .ok
    { name := n
      version := getStr m "version"
      build := getStr m "build"
      build_number := (getNat m "build_number").getD 0
      depends := (getList m "depends").getD []
      license := getStr m "license"
      md5 := getStr m "md5"
      sha256 := getStr m "sha256"
      size := getNat m "size"
      subdir := getStr m "subdir"
      timestamp := getNat m "timestamp" }

/-- An optional string as a mapping value. -/
def optStr : Option String → Value
  | some s => .str s
  | none => .null

/-- An optional integer as a mapping value. -/
def optNat : Option Nat → Value
  | some n => .nat n
  | none => .null

/-- `package_candidate_to_dict` from `src/python/rust_matchspec/__init__.py`,
installed as `PackageCandidate.to_dict`: returns a dict with exactly the
keys name, version, build_number, depends, license, md5, sha256, size,
subdir, timestamp (in that order). -/
def to_dict (c : PackageCandidate) : Dict :=
  [("name", .str c.name),
   ("version", optStr c.version),
   ("build_number", .nat c.build_number),
   ("depends", .list c.depends),
   ("license", optStr c.license),
   ("md5", optStr c.md5),
   ("sha256", optStr c.sha256),
   ("size", optNat c.size),
   ("subdir", optStr c.subdir),
   ("timestamp", optNat c.timestamp)]

/-- The candidate fields a mapping can populate, per the spec's data
model (the build string is carried under the repodata key `build`). -/
def candidateFields : List String :=
  ["name", "version", "build", "build_number", "depends", "license",
   "md5", "sha256", "size", "subdir", "timestamp"]

/-- The mapping value a round-trip is expected to produce for an unset
field: the stated defaults (`build_number` 0, `depends` empty), null for
the rest. -/
def defaultFor (k : String) : Value :=
  if k = "depends" then .list []
  else if k = "build_number" then .nat 0
  else .null

/-- The field value a round-trip through `from_dict`/`to_dict` is expected
to reproduce for key `k` of mapping `m`: the value set in `m`, or the
default when unset. -/
def expected (m : Dict) (k : String) : Value :=
  (lookup m k).getD (defaultFor k)

/-- Is `v` a well-typed value for candidate field `k`?  String fields
admit a string or null, integer fields an integer (sizes and timestamps
also null), `depends` a string list; unknown keys are unconstrained. -/
def fieldTypeOk (k : String) (v : Value) : Bool :=
  if k = "name" ∨ k = "version" ∨ k = "build" ∨ k = "license" ∨ k = "md5"
      ∨ k = "sha256" ∨ k = "subdir" then
    match v with
    | .str _ => true
    | .null => true
    | _ => false
  else if k = "build_number" then
    match v with
    | .nat _ => true
    | _ => false
  else if k = "size" ∨ k = "timestamp" then
    match v with
    | .nat _ => true
    | .null => true
    | _ => false
  else if k = "depends" then
    match v with
    | .list _ => true
    | _ => false
  else true

/-- A valid candidate mapping: every binding carries a well-typed value
for its key. -/
def WellTypedDict (m : Dict) : Prop := ∀ p ∈ m, fieldTypeOk p.1 p.2 = true

instance (m : Dict) : Decidable (WellTypedDict m) :=
  inferInstanceAs (Decidable (∀ p ∈ m, _))

/-! ## Version comparator

Modelled from the spec's data model and §4.1: a version is an ordered
sequence of release segments plus optional epoch, pre-release tag,
post-release, dev-release and local suffix; the total order compares
epoch, then release segments (missing segments treated as 0, so trailing
zeros are insignificant), then pre/post/dev precedence, then the local
suffix (absence sorts lowest).
-/

/-- The kind of a pre-release tag. -/
inductive PreKind where
  | alpha
  | beta
  | rc
deriving DecidableEq, Repr

/-- A parsed version. -/
structure Version where
  epoch : Nat := 0
  release : List Nat
  pre : Option (PreKind × Nat) := none
  post : Option Nat := none
  dev : Option Nat := none
  localSuffix : Option (List String) := none
deriving DecidableEq, Repr

/-- Strip the trailing zero segments of a release sequence.  Per the
spec, missing segments compare as 0, so `1.0` and `1.0.0` share the
stripped form `[1]`. -/
def stripZeros : List Nat → List Nat
  | [] => []
  | a :: as =>
    let t := stripZeros as
    if a = 0 ∧ t = [] then [] else a :: t

/-- Compare release segment sequences: missing trailing segments are
treated as 0 (realized by stripping trailing zeros), remaining segments
compare lexicographically. -/
def compareSegs : List Nat → List Nat → Ordering :=
  Ordering.byKey stripZeros (compareListBy compare)

/-- 0 when a pre-release tag is present (sorting before the bare
release), 1 otherwise. -/
def preTag : Option (PreKind × Nat) → Nat
  | some _ => 0
  | none => 1

/-- Rank of a pre-release kind: alpha < beta < release-candidate. -/
def preKindRank : PreKind → Nat
  | .alpha => 0
  | .beta => 1
  | .rc => 2

/-- Rank of the pre-release kind of a tag, 0 when absent. -/
def preRank : Option (PreKind × Nat) → Nat
  | some (k, _) => preKindRank k
  | none => 0

/-- Numeric index of a pre-release tag, 0 when absent. -/
def preNum : Option (PreKind × Nat) → Nat
  | some (_, n) => n
  | none => 0

/-- Compare pre-release tags: a tagged version sorts before the bare
release; tags compare by kind then index. -/
def comparePre : Option (PreKind × Nat) → Option (PreKind × Nat) → Ordering :=
  compareLex (Ordering.byKey preTag compare)
    (compareLex (Ordering.byKey preRank compare) (Ordering.byKey preNum compare))

/-- Compare post-release indexes: a post-release sorts after the bare
release; indexes compare numerically. -/
def comparePost : Option Nat → Option Nat → Ordering :=
  compareLex (Ordering.byKey (fun o => if o.isSome then 1 else 0) compare)
    (Ordering.byKey (fun o => o.getD 0) compare)

/-- Compare dev-release indexes: a dev release sorts before the
corresponding release; indexes compare numerically. -/
def compareDev : Option Nat → Option Nat → Ordering :=
  compareLex (Ordering.byKey (fun o => if o.isSome then 0 else 1) compare)
    (Ordering.byKey (fun o => o.getD 0) compare)

/-- Compare local-version suffixes: absence sorts lowest, present
suffixes compare segment-wise lexicographically. -/
def compareLocal : Option (List String) → Option (List String) → Ordering :=
  compareLex (Ordering.byKey (fun o => if o.isSome then 1 else 0) compare)
    (Ordering.byKey (fun o => o.getD []) (compareListBy compare))

/-- Modelled from the spec: `compare(a, b)` of the Version Comparator.
Total order: epoch, then release segments (missing treated as 0), then
pre-release, post-release and dev-release precedence, then the local
suffix. -/
def Version.compare : Version → Version → Ordering :=
  compareLex (Ordering.byKey Version.epoch Ord.compare)
    (compareLex (Ordering.byKey Version.release compareSegs)
      (compareLex (Ordering.byKey Version.pre comparePre)
        (compareLex (Ordering.byKey Version.post comparePost)
          (compareLex (Ordering.byKey Version.dev compareDev)
            (Ordering.byKey Version.localSuffix compareLocal)))))

instance : TransCmp compareSegs :=
  inferInstanceAs (TransCmp (Ordering.byKey stripZeros (compareListBy compare)))

instance : TransCmp comparePre :=
  inferInstanceAs (TransCmp (compareLex _ (compareLex _ _)))

instance : TransCmp comparePost := inferInstanceAs (TransCmp (compareLex _ _))

instance : TransCmp compareDev := inferInstanceAs (TransCmp (compareLex _ _))

instance : TransCmp compareLocal := inferInstanceAs (TransCmp (compareLex _ _))

instance : TransCmp Version.compare :=
  inferInstanceAs (TransCmp
    (compareLex _ (compareLex _ (compareLex _ (compareLex _ (compareLex _ _))))))

/-! ## Version parser

Modelled from the spec §4.1: tokenize on `.`, `-`, the `+` local-suffix
separator and the tag keywords `a`, `b`, `rc`, `post`, `dev`
(case-insensitive); the epoch is an integer prefix terminated by `!`;
malformed tokens (non-alphanumeric, empty segments) are rejected.
-/

/-- Split a character list on any of the given separator characters;
adjacent separators produce empty tokens (rejected downstream). -/
def splitOnChars (seps : List Char) : List Char → List (List Char)
  | [] => [[]]
  | c :: cs =>
    let r := splitOnChars seps cs
    if c ∈ seps then [] :: r
    else
      match r with
      | [] => [[c]]
      | t :: ts => (c :: t) :: ts

/-- Split a character list at the first occurrence of `c`, if any. -/
def splitOnFirst (c : Char) : List Char → Option (List Char × List Char)
  | [] => none
  | x :: xs =>
    if x = c then some ([], xs)
    else (splitOnFirst c xs).map (fun p => (x :: p.1, p.2))

/-- The number denoted by a digit run (0 for the empty run). -/
def natOfDigits (l : List Char) : Nat :=
  l.foldl (fun acc c => 10 * acc + (c.toNat - 48)) 0

/-- Parse a nonempty all-digit run as a number. -/
def parseNat (l : List Char) : Option Nat :=
  if !l.isEmpty && l.all (·.isDigit) then some (natOfDigits l) else none

/-- A recognized tag keyword: pre-release, post-release or dev-release. -/
inductive TagKind where
  | pre (k : PreKind)
  | post
  | dev
deriving DecidableEq, Repr

/-- The tag keywords: `a`, `b`, `rc`, `post`, `dev` (input already
lower-cased). -/
def tagOf : List Char → Option TagKind
  | ['a'] => some (.pre .alpha)
  | ['b'] => some (.pre .beta)
  | ['r', 'c'] => some (.pre .rc)
  | ['p', 'o', 's', 't'] => some .post
  | ['d', 'e', 'v'] => some .dev
  | _ => none

/-- Decompose one token into an optional leading release segment and an
optional tag with numeric index, e.g. `0rc1` into segment 0 and tag
`rc 1`; malformed tokens yield `none`. -/
def processToken (t : List Char) : Option (Option Nat × Option (TagKind × Nat)) :=
  let ds := t.takeWhile (·.isDigit)
  let rest := t.dropWhile (·.isDigit)
  let seg : Option Nat := if ds.isEmpty then none else some (natOfDigits ds)
  if rest.isEmpty then
    if ds.isEmpty then none else some (seg, none)
  else
    let al := rest.takeWhile (·.isAlpha)
    let num := rest.dropWhile (·.isAlpha)
    match tagOf al with
    | none => none
    | some tk =>
      if num.all (·.isDigit) then some (seg, some (tk, natOfDigits num))
      else none

/-- Intermediate state while folding version tokens. -/
structure VState where
  segs : List Nat
  pre : Option (PreKind × Nat)
  post : Option Nat
  dev : Option Nat
deriving DecidableEq, Repr

/-- Has any tag been seen yet?  Release segments may only appear before
the first tag. -/
def tagSeen (st : VState) : Bool :=
  st.pre.isSome || st.post.isSome || st.dev.isSome

/-- Record a tag, rejecting duplicates of the same kind. -/
def applyTag (st : VState) (tk : TagKind) (n : Nat) : Option VState :=
  match tk with
  | .pre k => if st.pre = none then some { st with pre := some (k, n) } else none
  | .post => if st.post = none then some { st with post := some n } else none
  | .dev => if st.dev = none then some { st with dev := some n } else none

/-- Fold the version tokens into release segments and tags. -/
def processTokens : List (List Char) → VState → Option VState
  | [], st => some st
  | t :: ts, st =>
    match processToken t with
    | none => none
    | some (seg, tag) =>
      let st1 : Option VState :=
        match seg with
        | none => some st
        | some n =>
          if tagSeen st then none else some { st with segs := st.segs ++ [n] }
      match st1 with
      | none => none
      | some s1 =>
        match tag with
        | none => processTokens ts s1
        | some (tk, n) =>
          match applyTag s1 tk n with
          | none => none
          | some s2 => processTokens ts s2

/-- Parse a local-version suffix: alphanumeric segments separated by `.`
or `-`. -/
def parseLocal (l : List Char) : Option (List String) :=
  let toks := splitOnChars ['.', '-'] l
  if toks.all (fun t => !t.isEmpty && t.all (·.isAlphanum)) then
    some (toks.map (fun t => String.mk t))
  else none

/-- Modelled from the spec: `parse(raw)` of the Version Comparator (the
Rust implementation is not among the visible sources).  Lower-cases the
input, splits off the `!`-terminated epoch and the `+`-prefixed local
suffix, tokenizes the remainder on `.` and `-`, and folds the tokens;
malformed input yields `none` (the ParseError case). -/
def parseVersion (s : String) : Option Version :=
  let cs := s.toList.map Char.toLower
  let (epochPart, rest) :=
    match splitOnFirst '!' cs with
    | some (e, r) => (parseNat e, r)
    | none => (some 0, cs)
  match epochPart with
  | none => none
  | some ep =>
    let (main, loc) :=
      match splitOnFirst '+' rest with
      | some (mn, lc) => (mn, some lc)
      | none => (rest, none)
    let localParsed : Option (Option (List String)) :=
      match loc with
      | none => some none
      | some lc =>
        match parseLocal lc with
        | none => none
        | some segs => some (some segs)
    match localParsed with
    | none => none
    | some localS =>
      match processTokens (splitOnChars ['.', '-'] main) ⟨[], none, none, none⟩ with
      | none => none
      | some st =>
        if st.segs.isEmpty then none
        else some { epoch := ep, release := st.segs, pre := st.pre,
                    post := st.post, dev := st.dev, localSuffix := localS }

/-- The release segments denoted by a glob pattern with its trailing
`.*` stripped; `none` when a segment is not numeric. -/
def globSegs (pat : String) : Option (List Nat) :=
  let cs := pat.toList
  let stripped :=
    match cs.reverse with
    | '*' :: '.' :: r => r.reverse
    | _ => cs
  (splitOnChars ['.'] stripped).mapM parseNat

/-- Modelled from the spec: `matches_glob(v, prefix_pattern)` of the
Version Comparator — true when `v`'s leading release segments equal the
pattern with its trailing `.*` stripped, compared segment-wise. -/
def matchesGlob (v : Version) (pat : String) : Bool :=
  match globSegs pat with
  | some ps => ps.isPrefixOf v.release
  | none => false

/-! ## MatchSpec and the match engine

Modelled from the spec §3 and §4.4: a `MatchSpec` is a name plus an
optional version expression (an AND/OR tree of atomic constraints) and
optional build/channel/subdir qualifiers; `is_match` evaluates it
against one candidate.
-/

/-- An atomic comparison operator. -/
inductive CmpOp where
  | eq
  | ne
  | lt
  | le
  | gt
  | ge
deriving DecidableEq, Repr

/-- One atomic version constraint: a comparison against a version, a
compatible-release (`~=`) constraint, a fuzzy (startswith) constraint
from a bare version or `=`, or a glob (trailing `.*`) pattern. -/
inductive VersionConstraint where
  | cmp (op : CmpOp) (v : Version)
  | compatible (v : Version)
  | fuzzy (v : Version)
  | glob (segs : List Nat)
deriving DecidableEq, Repr

/-- The boolean expression tree over version constraints:
comma-separated clauses combine with AND, pipe-separated clauses with
OR. -/
inductive VersionExpr where
  | leaf (c : VersionConstraint)
  | and (l r : VersionExpr)
  | or (l r : VersionExpr)
deriving DecidableEq, Repr

/-- A parsed specifier. -/
structure MatchSpec where
  name : String
  version : Option VersionExpr := none
  build : Option String := none
  build_number : Option (CmpOp × Nat) := none
  channel : Option String := none
  subdir : Option String := none
deriving DecidableEq, Repr

/-- Apply a comparison operator to a comparison outcome. -/
def evalCmpOp (op : CmpOp) (o : Ordering) : Bool :=
  match op with
  | .eq => o == .eq
  | .ne => o != .eq
  | .lt => o == .lt
  | .le => o != .gt
  | .gt => o == .gt
  | .ge => o != .lt

/-- The exclusive upper bound of a compatible-release constraint: the
final supplied segment floats, so the last segment is incremented. -/
def bumpRelease (l : List Nat) : List Nat :=
  l.dropLast ++ [l.getLastD 0 + 1]

/-- Evaluate one atomic constraint against a parsed candidate version. -/
def evalConstraint (c : VersionConstraint) (w : Version) : Bool :=
  match c with
  | .cmp op v => evalCmpOp op (Version.compare w v)
  | .compatible v =>
    evalCmpOp .ge (Version.compare w v) &&
      evalCmpOp .lt (Version.compare w { epoch := v.epoch, release := bumpRelease v.release })
  | .fuzzy v => v.release.isPrefixOf w.release
  | .glob ps => ps.isPrefixOf w.release

/-- Evaluate the AND/OR tree: AND is satisfied only if both children
are, OR if at least one is. -/
def evalExpr : VersionExpr → Version → Bool
  | .leaf c, w => evalConstraint c w
  | .and l r, w => evalExpr l w && evalExpr r w
  | .or l r, w => evalExpr l w || evalExpr r w

/-- Shell-style glob matching for build-string patterns (`*` matches any
run of characters). -/
def globChars : List Char → List Char → Bool
  | [], [] => true
  | [], _ :: _ => false
  | '*' :: ps, [] => globChars ps []
  | '*' :: ps, c :: cs => globChars ps (c :: cs) || globChars ('*' :: ps) cs
  | _ :: _, [] => false
  | p :: ps, c :: cs => p == c && globChars ps cs
termination_by p s => (p.length, s.length)

/-- Modelled from the spec: `is_match(spec, candidate)` of the Match
Engine (the Rust implementation is not among the visible sources).
Evaluation order: name (exact or `*` wildcard), then subdir, build
number and build-string glob qualifiers, then the version expression
(the channel qualifier has no counterpart field on a candidate and
constrains nothing here).  A candidate with an absent or unparsable
version never matches a version-bearing spec. -/
def is_match (ms : MatchSpec) (c : PackageCandidate) : Bool :=
  (ms.name == "*" || ms.name == c.name) &&
  (match ms.subdir with
   | none => true
   | some sd => c.subdir == some sd) &&
  (match ms.build_number with
   | none => true
   | some (op, n) => evalCmpOp op (compare c.build_number n)) &&
  (match ms.build with
   | none => true
   | some pat =>
     match c.build with
     | some b => globChars pat.toList b.toList
     | none => false) &&
  (match ms.version with
   | none => true
   | some e =>
     match c.version with
     | none => false
     | some vs =>
       match parseVersion vs with
       | none => false
       | some w => evalExpr e w)

/-! ## Specifier parser

Modelled from the spec §4.2: `[channel::]name[version][bracket
qualifiers]`; the version expression splits on `,` (AND) then `|` (OR),
each atom carrying a leading operator or none (fuzzy).
-/

/-- Strip leading and trailing whitespace characters. -/
def trimChars (l : List Char) : List Char :=
  ((l.dropWhile (·.isWhitespace)).reverse.dropWhile (·.isWhitespace)).reverse

/-- Split at the first `::`, when present (the channel separator). -/
def splitOnColons : List Char → Option (List Char × List Char)
  | ':' :: ':' :: rest => some ([], rest)
  | [] => none
  | x :: xs => (splitOnColons xs).map (fun p => (x :: p.1, p.2))

/-- Parse one atomic version token (already stripped of its operator)
into a fuzzy or glob constraint. -/
def parseFuzzyAtom (r : List Char) : Except MsError VersionConstraint :=
  let t := trimChars r
  match t.reverse with
  | '*' :: '.' :: _ =>
    match globSegs (String.mk t) with
    | some ps => .ok (.glob ps)
    | none => .error (.parseError (String.mk t))
  | _ =>
    match parseVersion (String.mk t) with
    | some v => .ok (.fuzzy v)
    | none => .error (.parseError (String.mk t))

/-- Parse an atomic version token with a comparison operator. -/
def parseCmpAtom (op : CmpOp) (r : List Char) : Except MsError VersionConstraint :=
  let t := trimChars r
  match parseVersion (String.mk t) with
  | some v => .ok (.cmp op v)
  | none => .error (.parseError (String.mk t))

/-- Parse one atom of a version expression: a leading operator token
(`>=`, `<=`, `==`, `!=`, `~=`, `>`, `<`, `=`) or none, then a version or
glob pattern.  `~=` requires at least two release segments. -/
def parseAtom (l : List Char) : Except MsError VersionConstraint :=
  match trimChars l with
  | '>' :: '=' :: r => parseCmpAtom .ge r
  | '<' :: '=' :: r => parseCmpAtom .le r
  | '=' :: '=' :: r => parseCmpAtom .eq r
  | '!' :: '=' :: r => parseCmpAtom .ne r
  | '~' :: '=' :: r =>
    (match parseVersion (String.mk (trimChars r)) with
     | some v =>
       if v.release.length ≥ 2 then .ok (.compatible v)
       else .error (.parseError (String.mk r))
     | none => .error (.parseError (String.mk r)))
  | '>' :: r => parseCmpAtom .gt r
  | '<' :: r => parseCmpAtom .lt r
  | '=' :: r => parseFuzzyAtom r
  | r => parseFuzzyAtom r

/-- Parse the atoms of one comma-clause. -/
def parseAtoms : List (List Char) → Except MsError (List VersionConstraint)
  | [] => .ok []
  | a :: as => do
    let c ← parseAtom a
    let cs ← parseAtoms as
    .ok (c :: cs)

/-- OR-combine a nonempty list of expressions. -/
def orAll (e : VersionExpr) : List VersionExpr → VersionExpr
  | [] => e
  | x :: xs => .or e (orAll x xs)

/-- AND-combine a nonempty list of expressions. -/
def andAll (e : VersionExpr) : List VersionExpr → VersionExpr
  | [] => e
  | x :: xs => .and e (andAll x xs)

/-- Parse one comma-clause: atoms split on `|` combine with OR. -/
def parseClause (l : List Char) : Except MsError VersionExpr := do
  let cs ← parseAtoms (splitOnChars ['|'] l)
  match cs.map VersionExpr.leaf with
  | [] => .error (.parseError (String.mk l))
  | e :: es => .ok (orAll e es)

/-- Parse the clauses of a version expression. -/
def parseClauses : List (List Char) → Except MsError (List VersionExpr)
  | [] => .ok []
  | c :: cs => do
    let e ← parseClause c
    let es ← parseClauses cs
    .ok (e :: es)

/-- Parse a whole version expression: clauses split on `,` combine with
AND, their `|`-separated atoms with OR. -/
def parseVersionExpr (l : List Char) : Except MsError VersionExpr := do
  let es ← parseClauses (splitOnChars [','] l)
  match es with
  | [] => .error (.parseError (String.mk l))
  | e :: rest => .ok (andAll e rest)

/-- The optional qualifiers a bracket section can set. -/
structure BracketOpts where
  version : Option (List Char) := none
  build : Option String := none
  build_number : Option (CmpOp × Nat) := none
  channel : Option String := none
  subdir : Option String := none

/-- Parse a build-number qualifier value: an optional comparison
operator (default exact) and an integer. -/
def parseBuildNumber (l : List Char) : Except MsError (CmpOp × Nat) :=
  let (op, r) :=
    match l with
    | '>' :: '=' :: r => (CmpOp.ge, r)
    | '<' :: '=' :: r => (CmpOp.le, r)
    | '=' :: '=' :: r => (CmpOp.eq, r)
    | '!' :: '=' :: r => (CmpOp.ne, r)
    | '>' :: r => (CmpOp.gt, r)
    | '<' :: r => (CmpOp.lt, r)
    | '=' :: r => (CmpOp.eq, r)
    | r => (CmpOp.eq, r)
  match parseNat (trimChars r) with
  | some n => .ok (op, n)
  | none => .error (.parseError (String.mk l))

/-- Fold the `key=value` pairs of a bracket section into the options;
unrecognized keys are a parse error. -/
def applyPairs : List (List Char) → BracketOpts → Except MsError BracketOpts
  | [], opts => .ok opts
  | p :: ps, opts =>
    match splitOnFirst '=' p with
    | none => .error (.parseError (String.mk p))
    | some (k, v) =>
      let key := String.mk (trimChars k)
      let val := trimChars v
      let next : Except MsError BracketOpts :=
        if key = "version" then .ok { opts with version := some val }
        else if key = "build" ∨ key = "build_string" then
          .ok { opts with build := some (String.mk val) }
        else if key = "build_number" then
          (parseBuildNumber val).map (fun bn => { opts with build_number := some bn })
        else if key = "channel" then .ok { opts with channel := some (String.mk val) }
        else if key = "subdir" then .ok { opts with subdir := some (String.mk val) }
        else .error (.parseError key)
      match next with
      | .error e => .error e
      | .ok o => applyPairs ps o

/-- Parse a bracket section `[key=value, ...]`. -/
def parseBracket (l : List Char) : Except MsError BracketOpts :=
  match trimChars l with
  | '[' :: rest =>
    match rest.reverse with
    | ']' :: innerRev => applyPairs (splitOnChars [','] innerRev.reverse) ({} : BracketOpts)
    | _ => .error (.parseError (String.mk l))
  | _ => .error (.parseError (String.mk l))

/-- Modelled from the spec: `parse(raw)` of the Specifier Parser (the
Rust implementation is not among the visible sources).  Grammar
`[channel::]name[version][bracket qualifiers]`: the name runs up to the
first operator character, whitespace or `[` and must be nonempty; the
version expression runs up to `[`; malformed input fails with a
ParseError carrying the offending fragment. -/
def parseMatchSpec (s : String) : Except MsError MatchSpec :=
  let cs := trimChars s.toList
  let (chan, rest0) :=
    match splitOnColons cs with
    | some (ch, r) => (some (String.mk (trimChars ch)), r)
    | none => (none, cs)
  let name := rest0.takeWhile
    (fun c => !(c ∈ ['>', '<', '=', '!', '~'] || c.isWhitespace || c = '['))
  if name.isEmpty then .error (.parseError (String.mk cs))
  else
    let afterName := rest0.drop name.length
    let versionChars := trimChars (afterName.takeWhile (· ≠ '['))
    let bracketChars := afterName.dropWhile (· ≠ '[')
    do
      let opts ← if bracketChars.isEmpty then .ok ({} : BracketOpts) else parseBracket bracketChars
      let vsrc := if !versionChars.isEmpty then some versionChars else opts.version
      let vexpr ← match vsrc with
        | none => .ok none
        | some vc => (parseVersionExpr vc).map some
      .ok { name := String.mk name
            version := vexpr
            build := opts.build
            build_number := opts.build_number
            channel := match chan with
              | some c => some c
              | none => opts.channel
            subdir := opts.subdir }

/-! ## Filter engine

Modelled from the spec §4.5 and §5: sequential filters keep, in input
order, the original mappings whose candidate conversion succeeds and
which match; the `_with_matchspec_list` variants demand a match against
every spec; parallel variants run the same predicate on contiguous
partitions and concatenate the per-partition results in order.
-/

/-- Modelled from the spec: `match_against_matchspec(spec_str, name,
version)` — parse the specifier, build a minimal candidate from the name
and version, evaluate `is_match`; parse errors surface unchanged. -/
def match_against_matchspec (spec name version : String) : Except MsError Bool :=
  (parseMatchSpec spec).map fun ms =>
    is_match ms
      { name := name, version := some version, build := none, build_number := 0,
        depends := [], license := none, md5 := none, sha256 := none,
        size := none, subdir := none, timestamp := none }

/-- Does mapping `d` convert to a candidate matching `ms`?  Mappings
whose conversion fails are skipped (treated as non-matches). -/
def isMatchDict (ms : MatchSpec) (d : Dict) : Bool :=
  match from_dict d with
  | .ok c => is_match ms c
  | .error _ => false

/-- Keep the mappings matching one parsed spec, preserving order. -/
def filterWithMs (ms : MatchSpec) (l : List Dict) : List Dict :=
  l.filter (isMatchDict ms)

/-- Modelled from the spec: `filter_package_list(spec_str, candidates)`
— parse the spec once (propagating its failure for the whole call), then
keep the original mappings that match, in input order. -/
def filter_package_list (s : String) (l : List Dict) : Except MsError (List Dict) :=
  (parseMatchSpec s).map (fun ms => filterWithMs ms l)

/-- Keep the mappings matching every parsed spec of a list. -/
def filterWithMsList (mss : List MatchSpec) (l : List Dict) : List Dict :=
  l.filter (fun d => mss.all (fun ms => isMatchDict ms d))

/-- Parse every specifier of a list, up front. -/
def parseMatchSpecList : List String → Except MsError (List MatchSpec)
  | [] => .ok []
  | s :: ss => do
    let m ← parseMatchSpec s
    let ms ← parseMatchSpecList ss
    .ok (m :: ms)

/-- Modelled from the spec: `filter_package_list_with_matchspec_list` —
a candidate is kept only if it matches every spec in the list. -/
def filter_package_list_with_matchspec_list (ss : List String) (l : List Dict) :
    Except MsError (List Dict) :=
  (parseMatchSpecList ss).map (fun mss => filterWithMsList mss l)

/-- Modelled from the spec: `parallel_filter_package_list` — the workers
filter disjoint contiguous partitions of the input and the coordinator
concatenates the per-partition results in partition order. -/
def parallel_filter_package_list (s : String) (parts : List (List Dict)) :
    Except MsError (List Dict) :=
  (parseMatchSpec s).map (fun ms => (parts.map (filterWithMs ms)).flatten)

/-- Modelled from the spec:
`parallel_filter_package_list_with_matchspec_list` — the partitioned
variant of the list filter. -/
def parallel_filter_package_list_with_matchspec_list (ss : List String)
    (parts : List (List Dict)) : Except MsError (List Dict) :=
  (parseMatchSpecList ss).map (fun mss => (parts.map (filterWithMsList mss)).flatten)

/-! ## Helper lemmas -/

theorem lookup_mem : ∀ (m : Dict) (k : String) (v : Value),
    lookup m k = some v → (k, v) ∈ m
  | [], _, _, h => by simp [lookup] at h
  | (k', v') :: m, k, v, h => by
    by_cases hk : k' = k
    · subst hk
      simp [lookup] at h
      subst h
      exact List.mem_cons_self ..
    · simp [lookup, hk] at h
      exact List.mem_cons_of_mem _ (lookup_mem m k v h)

theorem getStr_eq_some {m : Dict} {k : String} {s : String}
    (h : getStr m k = some s) : lookup m k = some (.str s) := by
  unfold getStr at h
  cases hl : lookup m k <;> rw [hl] at h
  · exact absurd h (by simp)
  · rename_i v
    cases v <;> simp at h
    rw [h]

theorem optStr_expected (m : Dict) (k : String) (hd : defaultFor k = .null)
    (h : ∀ v, lookup m k = some v → ((∃ s, v = .str s) ∨ v = .null)) :
    optStr (getStr m k) = expected m k := by
  unfold expected getStr
  cases hl : lookup m k
  · simp [optStr, hd]
  · rename_i v
    rcases h v hl with ⟨s, rfl⟩ | rfl <;> simp [optStr]

theorem optNat_expected (m : Dict) (k : String) (hd : defaultFor k = .null)
    (h : ∀ v, lookup m k = some v → ((∃ n, v = .nat n) ∨ v = .null)) :
    optNat (getNat m k) = expected m k := by
  unfold expected getNat
  cases hl : lookup m k
  · simp [optNat, hd]
  · rename_i v
    rcases h v hl with ⟨n, rfl⟩ | rfl <;> simp [optNat]

theorem natD_expected (m : Dict) (k : String) (hd : defaultFor k = .nat 0)
    (h : ∀ v, lookup m k = some v → ∃ n, v = .nat n) :
    Value.nat ((getNat m k).getD 0) = expected m k := by
  unfold expected getNat
  cases hl : lookup m k
  · simp [hd]
  · rename_i v
    obtain ⟨n, rfl⟩ := h v hl
    simp

theorem listD_expected (m : Dict) (k : String) (hd : defaultFor k = .list [])
    (h : ∀ v, lookup m k = some v → ∃ l, v = .list l) :
    Value.list ((getList m k).getD []) = expected m k := by
  unfold expected getList
  cases hl : lookup m k
  · simp [hd]
  · rename_i v
    obtain ⟨l, rfl⟩ := h v hl
    simp

theorem filter_map_flatten (p : α → Bool) :
    ∀ (parts : List (List α)), (parts.map (List.filter p)).flatten = parts.flatten.filter p
  | [] => rfl
  | l :: ls => by
    simp only [List.map_cons, List.flatten_cons, List.filter_append,
      filter_map_flatten p ls]

theorem filterWithMsList_pair (m1 m2 : MatchSpec) (l : List Dict) :
    filterWithMsList [m1, m2] l = filterWithMs m2 (filterWithMs m1 l) := by
  unfold filterWithMsList filterWithMs
  rw [List.filter_filter]
  apply List.filter_congr
  intro d _
  cases h1 : isMatchDict m1 d <;> cases h2 : isMatchDict m2 d <;>
    simp [List.all_cons, h1, h2]

/-! ## Concrete inputs used by the claims -/

/-- The version `3.9`. -/
def v39 : Version := { release := [3, 9] }

/-- The version `3.9.1`. -/
def vPy391 : Version := { release := [3, 9, 1] }

/-- The version `3.10`. -/
def v310 : Version := { release := [3, 10] }

/-- The version `4.0`. -/
def v40 : Version := { release := [4, 0] }

/-- The version `3.0`. -/
def v30 : Version := { release := [3, 0] }

/-- A candidate for python 3.9.1. -/
def candPy391 : PackageCandidate := { name := "python", version := some "3.9.1" }

/-- The version `1.1.5`, whose release segments start with `1.1`. -/
def vGlob115 : Version := { release := [1, 1, 5] }

/-- A mapping with a name and a build string, exhibiting the field that
`to_dict` drops. -/
def mBuild : Dict := [("name", .str "x"), ("build", .str "abc")]

/-- The candidate `from_dict` builds from `mBuild`. -/
def candBuild : PackageCandidate := { name := "x", build := some "abc" }

/-- The round-trip test mapping from `src/tests/test_api.py`. -/
def mTf : Dict := [("name", .str "tensorflow"), ("version", .str "2.12.0")]

/-- The candidate `from_dict` builds from `mTf`. -/
def candTf : PackageCandidate := { name := "tensorflow", version := some "2.12.0" }

/-- A mapping holding only a name. -/
def mPip : Dict := [("name", .str "pip")]

/-- A version-bearing spec, `python>=3.9`. -/
def msPyGe39 : MatchSpec := { name := "python", version := some (.leaf (.cmp .ge v39)) }

/-- A candidate whose version string does not parse. -/
def candGarbage : PackageCandidate := { name := "python", version := some "garbage" }

/-- Versions `1`, `2` and `3`, a strictly increasing chain. -/
def ver1 : Version := { release := [1] }

/-- See `ver1`. -/
def ver2 : Version := { release := [2] }

/-- See `ver1`. -/
def ver3 : Version := { release := [3] }

/-! ## Claims -/

/-- C4: `Version.compare` is a total order on parsed versions: reflexive
(`compare a a = Equal`), antisymmetric (`compare a b = Less` iff
`compare b a = Greater`, and `Equal` is symmetric), transitive (for both
`Less` and `Equal`), and every pair of versions is comparable. -/
theorem c4_compare_total_order :
    (∀ a : Version, Version.compare a a = .eq) ∧
    (∀ a b : Version, Version.compare a b = .lt ↔ Version.compare b a = .gt) ∧
    (∀ a b : Version, Version.compare a b = .eq ↔ Version.compare b a = .eq) ∧
    (∀ a b c : Version, Version.compare a b = .lt → Version.compare b c = .lt →
      Version.compare a c = .lt) ∧
    (∀ a b c : Version, Version.compare a b = .eq → Version.compare b c = .eq →
      Version.compare a c = .eq) ∧
    (∀ a b : Version, Version.compare a b = .lt ∨ Version.compare a b = .eq ∨
      Version.compare a b = .gt) := by
  refine ⟨fun a => OrientedCmp.cmp_refl, fun a b => ?_, fun a b => OrientedCmp.cmp_eq_eq_symm,
    fun a b c h1 h2 => TransCmp.lt_trans h1 h2,
    fun a b c h1 h2 => (TransCmp.cmp_congr_left h1).trans h2, fun a b => ?_⟩
  · exact OrientedCmp.cmp_eq_gt.symm
  · cases h : Version.compare a b
    · exact .inl rfl
    · exact .inr (.inl rfl)
    · exact .inr (.inr rfl)

/-- Witness for C4: the transitivity components discharged on the
concrete chain `1 < 2 < 3`. -/
theorem c4_compare_total_order_witness :
    Version.compare ver1 ver2 = .lt ∧ Version.compare ver2 ver3 = .lt ∧
    Version.compare ver1 ver3 = .lt :=
  ⟨by decide, by decide, c4_compare_total_order.2.2.2.1 ver1 ver2 ver3 (by decide) (by decide)⟩

/-- C5: `matchesGlob` compares release segments segment-wise against the
pattern with its trailing `.*` stripped — it holds exactly when the
pattern's segments lead the version's release segments — and in
particular `1.10` does not match `1.1.*` while `1.1.5` does. -/
theorem c5_matches_glob :
    (∀ (v : Version) (pat : String) (ps : List Nat), globSegs pat = some ps →
      (matchesGlob v pat = true ↔ ps <+: v.release)) ∧
    (parseVersion "1.10").map (fun v => matchesGlob v "1.1.*") = some false ∧
    (parseVersion "1.1.5").map (fun v => matchesGlob v "1.1.*") = some true := by
  refine ⟨fun v pat ps h => ?_, rfl, rfl⟩
  unfold matchesGlob
  rw [h]
  exact List.isPrefixOf_iff_prefix

/-- Witness for C5: the glob characterization discharged at the pattern
`1.1.*` and the version `1.1.5`. -/
theorem c5_matches_glob_witness :
    globSegs "1.1.*" = some [1, 1] ∧
    (matchesGlob vGlob115 "1.1.*" = true ↔ [1, 1] <+: vGlob115.release) :=
  ⟨by decide, c5_matches_glob.1 vGlob115 "1.1.*" [1, 1] (by decide)⟩

/-- C7: comma-separated clauses combine with AND and pipe-separated
clauses with OR — structurally in the parse and in evaluation — and the
three reference matches come out true, false and false. -/
theorem c7_and_or :
    (∀ (l r : VersionExpr) (w : Version),
      evalExpr (.and l r) w = (evalExpr l w && evalExpr r w)) ∧
    (∀ (l r : VersionExpr) (w : Version),
      evalExpr (.or l r) w = (evalExpr l w || evalExpr r w)) ∧
    (parseMatchSpec "python>=3.9,<3.10").map MatchSpec.version
      = .ok (some (.and (.leaf (.cmp .ge v39)) (.leaf (.cmp .lt v310)))) ∧
    (parseMatchSpec "python>=4.0|<3.0").map MatchSpec.version
      = .ok (some (.or (.leaf (.cmp .ge v40)) (.leaf (.cmp .lt v30)))) ∧
    match_against_matchspec "python>=3.9,<3.10" "python" "3.9.1" = .ok true ∧
    match_against_matchspec "python>=3.9,<3.10" "python" "3.10.0" = .ok false ∧
    match_against_matchspec "python>=4.0|<3.0" "python" "3.9.1" = .ok false :=
  ⟨fun _ _ _ => rfl, fun _ _ _ => rfl, rfl, rfl, rfl, rfl, rfl⟩

/-- C10: `to_dict` emits exactly the keys name, version, build_number,
depends, license, md5, sha256, size, subdir, timestamp — no build-string
key — so candidates differing only in their build string produce equal
dicts. -/
theorem c10_to_dict_keys :
    (∀ c : PackageCandidate, (to_dict c).map Prod.fst =
      ["name", "version", "build_number", "depends", "license", "md5",
       "sha256", "size", "subdir", "timestamp"]) ∧
    (∀ (c : PackageCandidate) (b : Option String),
      to_dict { c with build := b } = to_dict c) :=
  ⟨fun _ => rfl, fun _ _ => rfl⟩

/-- C6: a bare version clause fuzzy-matches exactly when the
constraint's release segments lead the candidate's parsed release
segments; in particular `python 3.9` matches the python 3.9.1 candidate
and `python 3.9.2` does not. -/
theorem c6_fuzzy_match :
    (∀ (v w : Version) (c : PackageCandidate) (s : String), c.version = some s →
      parseVersion s = some w →
      is_match { name := c.name, version := some (.leaf (.fuzzy v)) } c
        = v.release.isPrefixOf w.release) ∧
    (parseMatchSpec "python 3.9").map (fun ms => is_match ms candPy391) = .ok true ∧
    (parseMatchSpec "python 3.9.2").map (fun ms => is_match ms candPy391) = .ok false := by
  refine ⟨fun v w c s hc hp => ?_, rfl, rfl⟩
  simp [is_match, hc, hp, evalExpr, evalConstraint]

/-- Witness for C6: the fuzzy characterization discharged on the
constraint `3.9` and the candidate python 3.9.1. -/
theorem c6_fuzzy_match_witness :
    candPy391.version = some "3.9.1" ∧ parseVersion "3.9.1" = some vPy391 ∧
    is_match { name := candPy391.name, version := some (.leaf (.fuzzy v39)) } candPy391
      = v39.release.isPrefixOf vPy391.release :=
  ⟨rfl, by decide, c6_fuzzy_match.1 v39 vPy391 candPy391 "3.9.1" rfl (by decide)⟩

/-- C9: a candidate whose version string fails to parse never matches a
version-bearing spec — `is_match` totally evaluates to false rather than
raising. -/
theorem c9_unparsable_version_no_match :
    ∀ (ms : MatchSpec) (c : PackageCandidate) (s : String), ms.version.isSome →
      c.version = some s → parseVersion s = none → is_match ms c = false := by
  intro ms c s hv hc hp
  obtain ⟨e, he⟩ := Option.isSome_iff_exists.mp hv
  simp [is_match, he, hc, hp]

/-- Witness for C9: discharged on the spec `python>=3.9` and a candidate
with version string `garbage`. -/
theorem c9_unparsable_version_no_match_witness :
    msPyGe39.version.isSome ∧ candGarbage.version = some "garbage" ∧
    parseVersion "garbage" = none ∧ is_match msPyGe39 candGarbage = false :=
  ⟨rfl, rfl, by decide,
    c9_unparsable_version_no_match msPyGe39 candGarbage "garbage" rfl rfl (by decide)⟩

/-- C8: constructing a candidate from any mapping lacking the `name`
key fails with a KeyError identifying `name`; any mapping carrying a
name converts successfully. -/
theorem c8_missing_name :
    (∀ m : Dict, lookup m "name" = none →
      from_dict m = .error (.keyError "name")) ∧
    (∀ m : Dict, (∃ s, lookup m "name" = some (.str s)) →
      ∃ c, from_dict m = .ok c) := by
  refine ⟨fun m h => ?_, fun m ⟨s, hs⟩ =>
    ⟨{ name := s, version := getStr m "version", build := getStr m "build",
       build_number := (getNat m "build_number").getD 0,
       depends := (getList m "depends").getD [], license := getStr m "license",
       md5 := getStr m "md5", sha256 := getStr m "sha256", size := getNat m "size",
       subdir := getStr m "subdir", timestamp := getNat m "timestamp" }, ?_⟩⟩
  · unfold from_dict getStr
    rw [h]
  · unfold from_dict getStr
    rw [hs]

/-- A nonempty mapping lacking the `name` key. -/
def mNoName : Dict := [("version", .str "1.0")]

/-- Witness for C8: the failure half discharged on a nonempty mapping
that lacks the `name` key, the success half on the mapping holding only
the name `pip`. -/
theorem c8_missing_name_witness :
    (lookup mNoName "name" = none ∧
      from_dict mNoName = .error (.keyError "name")) ∧
    ((∃ s, lookup mPip "name" = some (.str s)) ∧ ∃ c, from_dict mPip = .ok c) :=
  ⟨⟨rfl, c8_missing_name.1 mNoName rfl⟩,
    ⟨⟨"pip", rfl⟩, c8_missing_name.2 mPip ⟨"pip", rfl⟩⟩⟩

/-- C2: the parallel filter variants agree with their sequential
counterparts — filtering the partitions and concatenating the results in
partition order returns, for every partitioning, exactly the sequential
output on the concatenated input (same elements, same order). -/
theorem c2_parallel_equals_sequential :
    (∀ (s : String) (parts : List (List Dict)),
      parallel_filter_package_list s parts = filter_package_list s parts.flatten) ∧
    (∀ (ss : List String) (parts : List (List Dict)),
      parallel_filter_package_list_with_matchspec_list ss parts
        = filter_package_list_with_matchspec_list ss parts.flatten) := by
  constructor
  · intro s parts
    unfold parallel_filter_package_list filter_package_list
    cases h : parseMatchSpec s
    · rfl
    · exact congrArg Except.ok (filter_map_flatten _ parts)
  · intro ss parts
    unfold parallel_filter_package_list_with_matchspec_list
      filter_package_list_with_matchspec_list
    cases h : parseMatchSpecList ss
    · rfl
    · exact congrArg Except.ok (filter_map_flatten _ parts)

/-- C3: `filter_package_list_with_matchspec_list` keeps a candidate
exactly when it matches every spec of the list, and on a two-spec list
it coincides with sequential composition of the single-spec filters (in
particular for `["python>=3.9.1", "openssl>1"]`). -/
theorem c3_spec_list_and_semantics :
    (∀ (mss : List MatchSpec) (l : List Dict) (d : Dict),
      d ∈ filterWithMsList mss l ↔
        d ∈ l ∧ ∀ ms ∈ mss, isMatchDict ms d = true) ∧
    (∀ (s1 s2 : String) (l : List Dict),
      filter_package_list_with_matchspec_list [s1, s2] l
        = (filter_package_list s1 l).bind (fun l1 => filter_package_list s2 l1)) := by
  constructor
  · intro mss l d
    simp [filterWithMsList, List.mem_filter, List.all_eq_true]
  · intro s1 s2 l
    unfold filter_package_list_with_matchspec_list filter_package_list
    simp only [parseMatchSpecList]
    cases h1 : parseMatchSpec s1
    · rfl
    · cases h2 : parseMatchSpec s2
      · rfl
      · exact congrArg Except.ok (filterWithMsList_pair _ _ l)

/-- C1 counterexample: the claim as stated — round-trip equality for
every candidate field including the build string — fails on the
well-typed mapping `mBuild`: `to_dict` emits no `build` key, so the
build string set in the input is not reproduced. -/
theorem c1_roundtrip_counterexample :
    WellTypedDict mBuild ∧ from_dict mBuild = .ok candBuild ∧
    "build" ∈ candidateFields ∧
    ¬ lookup (to_dict candBuild) "build" = some (expected mBuild "build") :=
  ⟨by decide, rfl, by decide, by decide⟩

/-- C1 (amended): for every well-typed mapping with a `name` key, the
round-trip through `from_dict` and `to_dict` reproduces every candidate
field except the build string — which `to_dict` omits entirely — with
unset optional fields mapped to null, an unset `depends` to the empty
sequence and an unset `build_number` to 0. -/
theorem c1_roundtrip_except_build (m : Dict) (c : PackageCandidate)
    (hwt : WellTypedDict m) (hok : from_dict m = .ok c) :
    (∀ k ∈ candidateFields, k ≠ "build" →
      lookup (to_dict c) k = some (expected m k)) ∧
    lookup (to_dict c) "build" = none := by
  unfold from_dict at hok
  cases hn : getStr m "name" <;> rw [hn] at hok
  · exact absurd hok (by simp)
  rename_i n
  rw [Except.ok.injEq] at hok
  subst hok
  have hstr : ∀ k : String, (k = "name" ∨ k = "version" ∨ k = "build" ∨ k = "license"
      ∨ k = "md5" ∨ k = "sha256" ∨ k = "subdir") →
      ∀ v, lookup m k = some v → ((∃ s, v = .str s) ∨ v = .null) := by
    intro k hk v hl
    have hft := hwt (k, v) (lookup_mem m k v hl)
    unfold fieldTypeOk at hft
    rw [if_pos hk] at hft
    cases v
    · exact .inl ⟨_, rfl⟩
    · exact absurd hft (by simp)
    · exact absurd hft (by simp)
    · exact .inr rfl
  have hnat0 : ∀ v, lookup m "build_number" = some v → ∃ x, v = .nat x := by
    intro v hl
    have hft : fieldTypeOk "build_number" v = true := hwt _ (lookup_mem m _ v hl)
    unfold fieldTypeOk at hft
    rw [if_neg (by decide), if_pos rfl] at hft
    cases v
    · exact absurd hft (by simp)
    · exact ⟨_, rfl⟩
    · exact absurd hft (by simp)
    · exact absurd hft (by simp)
  have hnatopt : ∀ k : String, (k = "size" ∨ k = "timestamp") →
      ∀ v, lookup m k = some v → ((∃ x, v = .nat x) ∨ v = .null) := by
    intro k hk v hl
    have hft : fieldTypeOk k v = true := hwt (k, v) (lookup_mem m k v hl)
    rcases hk with rfl | rfl
    · unfold fieldTypeOk at hft
      rw [if_neg (by decide), if_neg (by decide), if_pos (by decide)] at hft
      cases v
      · exact absurd hft (by simp)
      · exact .inl ⟨_, rfl⟩
      · exact absurd hft (by simp)
      · exact .inr rfl
    · unfold fieldTypeOk at hft
      rw [if_neg (by decide), if_neg (by decide), if_pos (by decide)] at hft
      cases v
      · exact absurd hft (by simp)
      · exact .inl ⟨_, rfl⟩
      · exact absurd hft (by simp)
      · exact .inr rfl
  have hlist : ∀ v, lookup m "depends" = some v → ∃ l, v = .list l := by
    intro v hl
    have hft : fieldTypeOk "depends" v = true := hwt _ (lookup_mem m _ v hl)
    unfold fieldTypeOk at hft
    rw [if_neg (by decide), if_neg (by decide), if_neg (by decide),
      if_pos rfl] at hft
    cases v
    · exact absurd hft (by simp)
    · exact absurd hft (by simp)
    · exact ⟨_, rfl⟩
    · exact absurd hft (by simp)
  refine ⟨?_, rfl⟩
  intro k hk hkb
  simp only [candidateFields, List.mem_cons, List.not_mem_nil, or_false] at hk
  rcases hk with rfl | rfl | rfl | rfl | rfl | rfl | rfl | rfl | rfl | rfl | rfl
  · show some (.str n) = some (expected m "name")
    unfold expected
    rw [getStr_eq_some hn]
    rfl
  · exact congrArg some
      (optStr_expected m "version" rfl (fun v hl => hstr "version" (by decide) v hl))
  · exact absurd rfl hkb
  · exact congrArg some (natD_expected m "build_number" rfl hnat0)
  · exact congrArg some (listD_expected m "depends" rfl hlist)
  · exact congrArg some
      (optStr_expected m "license" rfl (fun v hl => hstr "license" (by decide) v hl))
  · exact congrArg some
      (optStr_expected m "md5" rfl (fun v hl => hstr "md5" (by decide) v hl))
  · exact congrArg some
      (optStr_expected m "sha256" rfl (fun v hl => hstr "sha256" (by decide) v hl))
  · exact congrArg some
      (optNat_expected m "size" rfl (fun v hl => hnatopt "size" (by decide) v hl))
  · exact congrArg some
      (optStr_expected m "subdir" rfl (fun v hl => hstr "subdir" (by decide) v hl))
  · exact congrArg some
      (optNat_expected m "timestamp" rfl (fun v hl => hnatopt "timestamp" (by decide) v hl))

/-- Witness for C1: the amended round-trip discharged on the test
mapping for tensorflow 2.12.0. -/
theorem c1_roundtrip_except_build_witness :
    WellTypedDict mTf ∧ from_dict mTf = .ok candTf ∧
    ((∀ k ∈ candidateFields, k ≠ "build" →
        lookup (to_dict candTf) k = some (expected mTf k)) ∧
      lookup (to_dict candTf) "build" = none) :=
  ⟨by decide, rfl, c1_roundtrip_except_build mTf candTf (by decide) rfl⟩

end Matchspec
